import Mathlib

/-!
Verification development for the Meridian news-ingestion pipeline.

This file gives a shallow embedding, in Lean 4, of the pieces of the
repository that the checked claims are about:

* `lib/parsers.ts` — `cleanString`, `cleanUrl`, `parseRSSFeed`, `parseArticle`;
* `lib/articleFetchers.ts` — `getArticleWithFetch`;
* `lib/rateLimiter.ts` — `DomainRateLimiter.processBatch`;
* `lib/utils.ts` — `generateSearchText`;
* `workflows/processArticles.workflow.ts` — the commit step of `ProcessArticles.run`;
* `durable_objects/sourceScraperDO.ts` — `attemptWithRetries` and `SourceScraperDO.alarm`.

External libraries and platform services (fast-xml-parser, the WHATWG `URL`
constructor, JS `Date` parsing, `@mozilla/readability`, `fetch`, durable-object
storage, the database and the queue) are modelled as oracle parameters: the
embedded functions are parametrised over their observable outcomes, and the
repository's own control flow is transcribed around them.  JS exceptions are
made explicit (`Except` / dedicated `thrown` constructors), and effects
(alarms, sleeps, database updates, queue sends) are recorded in explicit
traces or returned state.
-/

/-! ## JS values

A small model of the JS values produced by `fast-xml-parser`.  `Option Json`
stands for a possibly-`undefined` value (a missing property reads as
`undefined`, i.e. `none`). -/

inductive Json where
  | null
  | bool (b : Bool)
  | num (n : Int)
  | str (s : String)
  | arr (elems : List Json)
  | obj (fields : List (String × Json))
deriving Repr

/-- Property access `j[k]` on a JS value: defined (`some`) only on objects
that carry the key. -/
def Json.get? (j : Json) (k : String) : Option Json :=
  match j with
  | .obj fields => (fields.find? (fun p => p.1 = k)).map (fun p => p.2)
  | _ => none

/-- JS truthiness of a defined value (`null`, `false`, `0` and `""` are falsy). -/
def Json.truthy : Json → Bool
  | .null => false
  | .bool b => b
  | .num n => n != 0
  | .str s => s ≠ ""
  | .arr _ => true
  | .obj _ => true

/-- Truthiness of a possibly-`undefined` value (`undefined` is falsy). -/
def jsTruthy? (j : Option Json) : Bool :=
  match j with
  | none => false
  | some v => v.truthy

/-! ## The whitespace normaliser `cleanString`

`cleanString` (lib/parsers.ts) applies four global regex replacements and a
final trim:

1. `[ \t]+`   becomes a single space;
2. `\n\s+`    becomes a single newline;
3. `\s+\n`    becomes a single newline;
4. `\n{3,}`   becomes two newlines;
5. `trim()`.

Each pass below transcribes the left-to-right, leftmost-longest global
replacement behaviour of the corresponding JS regex on the characters of the
string.  The JS whitespace class is modelled by its ASCII members, which are
the only ones the repository's feeds exercise. -/

def isJsWs (c : Char) : Bool :=
  c = ' ' ∨ c = '\t' ∨ c = '\n' ∨ c = '\r' ∨ c = '\x0b' ∨ c = '\x0c'

def isSpaceTab (c : Char) : Bool :=
  c = ' ' ∨ c = '\t'

/-- Pass 1 worker: every maximal run of spaces and tabs becomes one space.
The fuel argument only forces structural recursion; every step consumes at
least one character, so fuel equal to the length never runs out. -/
def collapseSpaceTabGo : Nat → List Char → List Char
  | 0, l => l
  | _ + 1, [] => []
  | fuel + 1, c :: rest =>
    if isSpaceTab c then ' ' :: collapseSpaceTabGo fuel (rest.dropWhile isSpaceTab)
    else c :: collapseSpaceTabGo fuel rest

def collapseSpaceTab (l : List Char) : List Char :=
  collapseSpaceTabGo l.length l

/-- Pass 2 worker: a newline followed by a maximal nonempty whitespace run
becomes one newline (the JS regex `\n\s+`, matched greedily). -/
def collapseAfterNlGo : Nat → List Char → List Char
  | 0, l => l
  | _ + 1, [] => []
  | fuel + 1, c :: rest =>
    if c = '\n' ∧ (rest.head?.elim false isJsWs) then
      '\n' :: collapseAfterNlGo fuel (rest.dropWhile isJsWs)
    else c :: collapseAfterNlGo fuel rest

def collapseAfterNl (l : List Char) : List Char :=
  collapseAfterNlGo l.length l

/-- Index of the last newline, at position at least 1, inside a character
run.  This is where the backtracking greedy match of `\s+\n` ends when the
scan sits at the start of the run. -/
def lastNlIdx (run : List Char) : Option Nat :=
  (((List.range run.length).filter
      (fun k => 1 ≤ k ∧ run.get? k = some '\n')).reverse).head?

/-- Pass 3 worker: the JS regex `\s+\n` replaced by a newline.  At a
whitespace run, the greedy match with backtracking covers the run up to its
last newline at index at least 1; with no such newline the scan advances one
character. -/
def collapseBeforeNlGo : Nat → List Char → List Char
  | 0, l => l
  | _ + 1, [] => []
  | fuel + 1, c :: rest =>
    if isJsWs c then
      match lastNlIdx (c :: rest.takeWhile isJsWs) with
      | some k => '\n' :: collapseBeforeNlGo fuel ((c :: rest).drop (k + 1))
      | none => c :: collapseBeforeNlGo fuel rest
    else c :: collapseBeforeNlGo fuel rest

def collapseBeforeNl (l : List Char) : List Char :=
  collapseBeforeNlGo l.length l

/-- Pass 4 worker: a run of three or more newlines becomes exactly two. -/
def collapseManyNlGo : Nat → List Char → List Char
  | 0, l => l
  | _ + 1, [] => []
  | fuel + 1, c :: rest =>
    if c = '\n' ∧ 2 ≤ (rest.takeWhile (fun d => d = '\n')).length then
      '\n' :: '\n' :: collapseManyNlGo fuel (rest.drop (rest.takeWhile (fun d => d = '\n')).length)
    else c :: collapseManyNlGo fuel rest

def collapseManyNl (l : List Char) : List Char :=
  collapseManyNlGo l.length l

/-- JS `String.prototype.trim`: strip whitespace from both ends. -/
def trimJs (l : List Char) : List Char :=
  ((l.dropWhile isJsWs).reverse.dropWhile isJsWs).reverse

/-- Embedding of `cleanString` (lib/parsers.ts). -/
def cleanString (s : String) : String :=
  String.mk (trimJs (collapseManyNl (collapseBeforeNl (collapseAfterNl (collapseSpaceTab s.data)))))

example : cleanString "  Multiple    spaces  \n\n\n  and \t\t tabs \n   and extra newlines  "
    = "Multiple spaces\nand tabs\nand extra newlines" := by decide

/-! ## URL canonicalisation, `cleanUrl`

The WHATWG `URL` constructor is external; it is modelled by an oracle
`parseURL : String → Option URLRec`, where `none` stands for the constructor
throwing `TypeError: Invalid URL` and `URLRec` records the parsed base
(scheme, host, path) together with the query parameters.  `cleanUrl`
(lib/parsers.ts) then deletes the tracking parameters and re-serialises. -/

structure URLRec where
  base : String
  params : List (String × String)
deriving Repr, DecidableEq

def URLRec.render (u : URLRec) : String :=
  if u.params = [] then u.base
  else u.base ++ "?" ++ String.intercalate "&" (u.params.map (fun p => p.1 ++ "=" ++ p.2))

def trackingParams : List String :=
  ["utm_source", "utm_medium", "utm_campaign", "utm_term", "utm_content", "fbclid", "gclid"]

/-- Embedding of `cleanUrl` (lib/parsers.ts).  The result is `none` exactly
when `new URL(url)` throws, i.e. when the oracle rejects the string. -/
def cleanUrl (parseURL : String → Option URLRec) (url : String) : Option String :=
  match parseURL url with
  | none => none
  | some u => some (URLRec.render { u with params := u.params.filter (fun p => ¬ p.1 ∈ trackingParams) })

/-! ## The feed parser `parseRSSFeed`

`parseRSSFeed` (lib/parsers.ts) runs fast-xml-parser on the document, picks
the item collection out of the known feed shapes, normalises each item to
`\x7b title, link, id, pubDate \x7d`, and validates the list with
`z.array(rssFeedSchema)` where `rssFeedSchema` requires a nonempty `title`
string, a `link` string and a `pubDate` that is a date or null (the `id`
field is not part of the schema and is stripped from the output).

External pieces are oracles in `FeedEnv`: the XML parser (its thrown
exceptions are `Except.error`), the `URL` constructor, and JS `Date` parsing
(`parseDate s = none` models `new Date(s)` being an Invalid Date). -/

structure FeedEnv where
  xmlParse : String → Except String Json
  parseURL : String → Option URLRec
  parseDate : String → Option Int

/-- Item record produced by the per-item normalisation inside
`parseRSSFeed` (the `properItems` array). -/
structure ProperItem where
  title : String
  link : String
  id : String
  pubDate : Option Int
deriving Repr, DecidableEq

/-- Entry shape returned by `parseRSSFeed` after `rssFeedSchema` validation
(zod strips the unknown `id` key). -/
structure FeedEntry where
  title : String
  link : String
  pubDate : Option Int
deriving Repr, DecidableEq

inductive FeedError where
  | parseError (msg : String)
  | validationError
deriving Repr, DecidableEq

/-- Overall outcome of a call to `parseRSSFeed`: a structured `Result` as in
the source (`ok` or `error`), or `thrown` when the function body raises a JS
exception so that the returned promise rejects. -/
inductive FeedResult where
  | ok (entries : List FeedEntry)
  | error (e : FeedError)
  | thrown (msg : String)
deriving Repr, DecidableEq

/-- The item-collection lookup:
`result.rss?.channel?.item || result.feed?.entry || result.item || result['rdf:RDF']?.item || []`. -/
def extractItems (doc : Json) : Json :=
  let cand1 := (doc.get? "rss").bind (fun j => j.get? "channel") |>.bind (fun j => j.get? "item")
  let cand2 := (doc.get? "feed").bind (fun j => j.get? "entry")
  let cand3 := doc.get? "item"
  let cand4 := (doc.get? "rdf:RDF").bind (fun j => j.get? "item")
  if jsTruthy? cand1 then cand1.getD .null
  else if jsTruthy? cand2 then cand2.getD .null
  else if jsTruthy? cand3 then cand3.getD .null
  else if jsTruthy? cand4 then cand4.getD .null
  else .arr []

/-- The single-item promotion `Array.isArray(items) ? items : [items]`. -/
def asItemList (items : Json) : List Json :=
  match items with
  | .arr elems => elems
  | j => [j]

/-- Title extraction for one item: a string, or an object with a truthy
`#text`, else the fallback `"UNKNOWN"`.  Non-string truthy `#text` values
(which would make the source throw later, in `cleanString`) do not occur in
the feeds modelled here and are mapped to the fallback. -/
def itemTitle (item : Json) : String :=
  match item.get? "title" with
  | some (.str s) => s
  | some (.obj fields) =>
    match (Json.obj fields).get? "#text" with
    | some (.str s) => if s ≠ "" then s else "UNKNOWN"
    | _ => "UNKNOWN"
  | _ => "UNKNOWN"

/-- Link extraction for one item: a string link, an object link with a truthy
`@_href`, a string guid, else the fallback `"UNKNOWN"`. -/
def itemLink (item : Json) : String :=
  match item.get? "link" with
  | some (.str s) => s
  | some (.obj fields) =>
    match (Json.obj fields).get? "@_href" with
    | some (.str s) =>
      if s ≠ "" then s
      else match item.get? "guid" with
        | some (.str g) => g
        | _ => "UNKNOWN"
    | _ =>
      match item.get? "guid" with
      | some (.str g) => g
      | _ => "UNKNOWN"
  | _ =>
    match item.get? "guid" with
    | some (.str g) => g
    | _ => "UNKNOWN"

/-- Guid extraction for one item: a string guid, an object guid with a truthy
`#text`, else the fallback `"UNKNOWN"`. -/
def itemId (item : Json) : String :=
  match item.get? "guid" with
  | some (.str s) => s
  | some (.obj fields) =>
    match (Json.obj fields).get? "#text" with
    | some (.str s) => if s ≠ "" then s else "UNKNOWN"
    | _ => "UNKNOWN"
  | _ => "UNKNOWN"

/-- Publish-date string selection: `pubDate`, else `published`, else
`updated`, whichever is a string first; else null. -/
def itemPubDateString (item : Json) : Option String :=
  match item.get? "pubDate" with
  | some (.str s) => some s
  | _ =>
    match item.get? "published" with
    | some (.str s) => some s
    | _ =>
      match item.get? "updated" with
      | some (.str s) => some s
      | _ => none

/-- Normalisation of a single feed item, mirroring the `items.map` callback
in `parseRSSFeed`.  `cleanUrl` throwing on an unparseable link surfaces as
`Except.error`: the exception escapes the `map` callback and the whole
`parseRSSFeed` call. -/
def mapItem (env : FeedEnv) (item : Json) : Except String ProperItem :=
  match cleanUrl env.parseURL (cleanString (itemLink item)) with
  | none => .error ("TypeError: Invalid URL: " ++ cleanString (itemLink item))
  | some link =>
    .ok
      { title := cleanString (itemTitle item)
        link := link
        id := cleanString (itemId item)
        pubDate := (itemPubDateString item).bind env.parseDate }

/-- Normalisation of the whole item list; the first thrown exception aborts
the surrounding call, as an exception thrown inside `Array.prototype.map`
does. -/
def mapItems (env : FeedEnv) : List Json → Except String (List ProperItem)
  | [] => .ok []
  | item :: rest =>
    match mapItem env item with
    | .error e => .error e
    | .ok p =>
      match mapItems env rest with
      | .error e => .error e
      | .ok ps => .ok (p :: ps)

/-- Validation result of `z.array(rssFeedSchema)` on the normalised items:
it succeeds exactly when every item's title is a nonempty string (`link` is
always a string here and `pubDate` is always a valid date or null), and the
parsed output strips the `id` key, which the schema does not know. -/
def validateItems (items : List ProperItem) : Option (List FeedEntry) :=
  if items.all (fun p => p.title ≠ "") then
    some (items.map (fun p => { title := p.title, link := p.link, pubDate := p.pubDate }))
  else none

/-- Embedding of `parseRSSFeed` (lib/parsers.ts).  The zod error message
attached to a validation failure is produced by the external zod library and
is not modelled; only the error kind is. -/
def parseRSSFeedM (env : FeedEnv) (xml : String) : FeedResult :=
  match env.xmlParse xml with
  | .error e => .error (.parseError e)
  | .ok doc =>
    match mapItems env (asItemList (extractItems doc)) with
    | .error msg => .thrown msg
    | .ok items =>
      match validateItems items with
      | some entries => .ok entries
      | none => .error .validationError

/-! ## Concrete feed documents

A demonstration environment for the feed parser.  The XML oracle returns the
exact value fast-xml-parser produces on each document; the URL oracle accepts
the plain `https://` URLs appearing in them and rejects everything else, as
`new URL` does. -/

def xmlMixed : String :=
  "<rss><channel><item><title>Hello</title><link>https://example.com/a</link></item><item><title></title><link>https://example.com/b</link></item></channel></rss>"

def xmlNoLink : String :=
  "<rss><channel><item><title>Hello</title></item></channel></rss>"

def docMixed : Json :=
  .obj [("rss", .obj [("channel", .obj [("item", .arr
    [ .obj [("title", .str "Hello"), ("link", .str "https://example.com/a")],
      .obj [("title", .str ""), ("link", .str "https://example.com/b")] ])])])]

def docNoLink : Json :=
  .obj [("rss", .obj [("channel", .obj [("item", .obj [("title", .str "Hello")])])])]

def demoFeedEnv : FeedEnv where
  xmlParse s :=
    if s = xmlMixed then .ok docMixed
    else if s = xmlNoLink then .ok docNoLink
    else .error "Invalid XML"
  parseURL s :=
    if s = "https://example.com/a" ∨ s = "https://example.com/b" then some { base := s, params := [] }
    else none
  parseDate _ := none

/-- Third concrete document: a fully valid single-item feed (the item is an
object, not an array, exercising the single-item promotion). -/
def xmlValid : String :=
  "<rss><channel><item><title>Hi</title><link>https://example.com/a</link></item></channel></rss>"

def docValid : Json :=
  .obj [("rss", .obj [("channel", .obj [("item",
    .obj [("title", .str "Hi"), ("link", .str "https://example.com/a")])])])]

def demoFeedEnvFull : FeedEnv :=
  { demoFeedEnv with
    xmlParse := fun s =>
      if s = xmlValid then .ok docValid else demoFeedEnv.xmlParse s }

/-- Normalised items of `docMixed`: the first is valid, the second has an
empty title. -/
def propItemsMixed : List ProperItem :=
  [ { title := "Hello", link := "https://example.com/a", id := "UNKNOWN", pubDate := none },
    { title := "", link := "https://example.com/b", id := "UNKNOWN", pubDate := none } ]

def propItemsValid : List ProperItem :=
  [ { title := "Hi", link := "https://example.com/a", id := "UNKNOWN", pubDate := none } ]

/-- C1 (counterexample).  A feed with one valid entry and one empty-titled
entry: `parseRSSFeed` returns a `VALIDATION_ERROR` for the whole document and
never returns the surviving valid entry, so malformed entries are not
"dropped while the remaining valid entries are still returned". -/
theorem parseRSSFeed_mixed_feed_counterexample :
    parseRSSFeedM demoFeedEnv xmlMixed = FeedResult.error FeedError.validationError ∧
    ∀ entries, parseRSSFeedM demoFeedEnv xmlMixed ≠ FeedResult.ok entries := by
  constructor
  · decide
  · intro es h
    rw [show parseRSSFeedM demoFeedEnv xmlMixed = FeedResult.error FeedError.validationError
        by decide] at h
    exact FeedResult.noConfusion h

/-- C1 (amended).  Validation of the normalised items is all-or-nothing:
when the per-item normalisation succeeds, the parser returns the whole entry
list exactly when every title is nonempty, and returns `VALIDATION_ERROR`
for the whole feed (returning no entries at all) as soon as any single
normalised item has an empty title. -/
theorem parseRSSFeed_all_or_nothing (env : FeedEnv) (xml : String) (doc : Json)
    (items : List ProperItem)
    (h1 : env.xmlParse xml = .ok doc)
    (h2 : mapItems env (asItemList (extractItems doc)) = .ok items) :
    (items.all (fun p => p.title ≠ "") = true →
      parseRSSFeedM env xml =
        FeedResult.ok (items.map (fun p => { title := p.title, link := p.link, pubDate := p.pubDate }))) ∧
    ((∃ p ∈ items, p.title = "") →
      parseRSSFeedM env xml = FeedResult.error FeedError.validationError) := by
  have hmain : parseRSSFeedM env xml =
      (if items.all (fun p => p.title ≠ "") then
        FeedResult.ok (items.map (fun p => { title := p.title, link := p.link, pubDate := p.pubDate }))
      else FeedResult.error FeedError.validationError) := by
    simp only [parseRSSFeedM, h1, h2, validateItems]
    cases hb : items.all (fun p => p.title ≠ "") <;> simp
  constructor
  · intro hall
    rw [hmain, hall]
    simp
  · rintro ⟨p, hp, ht⟩
    have hall : items.all (fun p => p.title ≠ "") = false := by
      rw [List.all_eq_false]
      exact ⟨p, hp, by simp [ht]⟩
    rw [hmain, hall]
    simp

set_option maxRecDepth 20000 in
/-- C1 (witness).  The all-or-nothing behaviour applied to the concrete
valid single-item feed. -/
theorem parseRSSFeed_all_or_nothing_witness :
    parseRSSFeedM demoFeedEnvFull xmlValid =
      FeedResult.ok [{ title := "Hi", link := "https://example.com/a", pubDate := none }] :=
  (parseRSSFeed_all_or_nothing demoFeedEnvFull xmlValid docValid propItemsValid rfl rfl).1
    (by decide)

set_option maxRecDepth 20000 in
/-- C7.  A feed item with neither a link nor a guid takes the `'UNKNOWN'`
link fallback, and `cleanUrl('UNKNOWN')` then throws `TypeError: Invalid
URL` inside `items.map`, so the `parseRSSFeed` promise rejects instead of
returning a structured result. -/
theorem parseRSSFeed_throws_on_missing_link :
    parseRSSFeedM demoFeedEnv xmlNoLink = FeedResult.thrown "TypeError: Invalid URL: UNKNOWN" := by
  decide

/-! ## The article parser `parseArticle` and the plain-fetch strategy

`parseArticle` (lib/parsers.ts) wraps `@mozilla/readability` over a linkedom
document.  The external extractor is an oracle `readability : String →
ReadOutcome`: it can throw, return `null`, or return a raw article record.
`getArticleWithFetch` (lib/articleFetchers.ts) wraps a plain `fetch` whose
observable outcome is either a thrown network error or a response carrying
an HTTP status code and a body (reading the body is modelled as succeeding;
its failure would reject the whole promise, which no claim is about). -/

structure RawArticle where
  title : String
  textContent : String
  publishedTime : Option String
deriving Repr, DecidableEq

inductive ReadOutcome where
  | thrown (msg : String)
  | parsed (a : Option RawArticle)
deriving Repr, DecidableEq

structure ParsedArticle where
  title : String
  text : String
  publishedTime : Option String
deriving Repr, DecidableEq

inductive ParseArticleError where
  | readabilityError (msg : String)
  | noArticleFound
deriving Repr, DecidableEq

/-- Embedding of `parseArticle` (lib/parsers.ts): a readability exception is
`READABILITY_ERROR`; a null result or a falsy (empty) title or text is
`NO_ARTICLE_FOUND`; otherwise the text is whitespace-normalised and a falsy
`publishedTime` becomes `undefined`. -/
def parseArticleM (readability : String → ReadOutcome) (html : String) :
    Except ParseArticleError ParsedArticle :=
  match readability html with
  | .thrown m => .error (.readabilityError m)
  | .parsed none => .error .noArticleFound
  | .parsed (some a) =>
    if a.title = "" ∨ a.textContent = "" then .error .noArticleFound
    else
      .ok
        { title := a.title
          text := cleanString a.textContent
          publishedTime :=
            match a.publishedTime with
            | some t => if t = "" then none else some t
            | none => none }

inductive FetchOutcome where
  | threw (msg : String)
  | response (status : Nat) (body : String)
deriving Repr, DecidableEq

inductive ArticleFetchError where
  | fetchError
  | parseError (e : ParseArticleError)
deriving Repr, DecidableEq

/-- Embedding of `getArticleWithFetch` (lib/articleFetchers.ts): a thrown
`fetch` is `FETCH_ERROR`; otherwise the body — whatever the status code —
goes straight to `parseArticle`, whose failure is `PARSE_ERROR`. -/
def getArticleWithFetchM (readability : String → ReadOutcome) (outcome : FetchOutcome) :
    Except ArticleFetchError ParsedArticle :=
  match outcome with
  | .threw _ => .error .fetchError
  | .response _ body =>
    match parseArticleM readability body with
    | .error e => .error (.parseError e)
    | .ok a => .ok a

/-- A 404 error page whose HTML nevertheless contains readable content, and
a readability oracle that extracts it (as the real extractor does). -/
def page404 : String := "<html><body><h1>Oops</h1><p>That page does not exist.</p></body></html>"

def demoReadability : String → ReadOutcome := fun h =>
  if h = page404 then
    .parsed (some { title := "Oops", textContent := "That page does not exist.", publishedTime := none })
  else .parsed none

/-- C6 (counterexample).  A plain fetch that answers with HTTP status 404
still yields a successful article result, because `getArticleWithFetch`
never inspects the response status. -/
theorem getArticleWithFetch_404_success :
    getArticleWithFetchM demoReadability (.response 404 page404) =
      .ok { title := "Oops", text := "That page does not exist.", publishedTime := none } := by
  rfl

/-- C6 (amended).  The plain-fetch strategy is status-blind: the result does
not depend on the HTTP status code at all; `FETCH_ERROR` arises exactly when
the `fetch` call itself throws, and a response succeeds exactly when its body
passes `parseArticle`. -/
theorem getArticleWithFetch_status_blind (readability : String → ReadOutcome) :
    (∀ s₁ s₂ body, getArticleWithFetchM readability (.response s₁ body)
        = getArticleWithFetchM readability (.response s₂ body)) ∧
    (∀ msg, getArticleWithFetchM readability (.threw msg) = .error .fetchError) ∧
    (∀ status body a, getArticleWithFetchM readability (.response status body) = .ok a
        ↔ parseArticleM readability body = .ok a) := by
  refine ⟨fun s₁ s₂ body => rfl, fun msg => rfl, fun status body a => ?_⟩
  cases h : parseArticleM readability body with
  | error e => simp [getArticleWithFetchM, h]
  | ok b => simp [getArticleWithFetchM, h]

/-- C6 (witness).  The status-blind characterisation evaluated on the
concrete 404 response. -/
theorem getArticleWithFetch_status_blind_witness :
    getArticleWithFetchM demoReadability (.response 500 page404) =
      .ok { title := "Oops", text := "That page does not exist.", publishedTime := none } :=
  ((getArticleWithFetch_status_blind demoReadability).2.2 500 page404 _).mpr (by rfl)

/-! ## The search-text builder `generateSearchText`

`generateSearchText` (lib/utils.ts) is a pure function over the analysis
fields; it is embedded directly.  JS `trim` and `endsWith('.')` are
`jsTrim` and `endsWithPeriod`; `toUpperCase` on the ASCII location markers
is `String.toUpper`. -/

structure AnalysisInput where
  title : String
  primary_location : String
  event_summary_points : List String
  thematic_keywords : List String
  topic_tags : List String
  key_entities : List String
  content_focus : List String
deriving Repr, DecidableEq

def jsTrim (s : String) : String :=
  String.mk (trimJs s.data)

/-- JS `s.endsWith('.')`: the last character is a period. -/
def endsWithPeriod (s : String) : Bool :=
  s.data.getLast? = some '.'

/-- The `joinSafely` helper: trim, drop empties, join with spaces. -/
def joinSafely (arr : List String) : String :=
  String.intercalate " " ((arr.map jsTrim).filter (fun s => s ≠ ""))

/-- Summary points: trim, drop empties, force a trailing period, join. -/
def summaryText (points : List String) : String :=
  String.intercalate " "
    (((points.map jsTrim).filter (fun p => p ≠ "")).map
      (fun p => if endsWithPeriod p then p else p ++ "."))

def nonSpecificLocations : List String :=
  ["GLOBAL", "WORLD", "", "NONE", "N/A"]

/-- JS `toUpperCase`, on the ASCII strings compared against the generic
location markers. -/
def jsToUpper (s : String) : String :=
  String.mk (s.data.map Char.toUpper)

/-- Location: trimmed, discarded when it is a generic placeholder. -/
def locationText (loc : String) : String :=
  let t := jsTrim loc
  if jsToUpper t ∈ nonSpecificLocations then "" else t

/-- The part-joining loop: parts are separated by `". "`, or by a single
space when the accumulated string already ends with a period. -/
def combineParts : List String → String
  | [] => ""
  | p :: rest =>
    rest.foldl
      (fun acc part => if endsWithPeriod acc then acc ++ " " ++ part else acc ++ ". " ++ part) p

/-- Final fix-up: append a period when the combined string is nonempty and
does not already end with one. -/
def finalizePeriod (c : String) : String :=
  if c ≠ "" ∧ ¬ endsWithPeriod c then c ++ "." else c

/-- Embedding of `generateSearchText` (lib/utils.ts). -/
def generateSearchText (d : AnalysisInput) : String :=
  let summary := summaryText d.event_summary_points
  let keywords := joinSafely d.thematic_keywords
  let tags := joinSafely d.topic_tags
  let entities := joinSafely d.key_entities
  let focus := joinSafely d.content_focus
  let location := locationText d.primary_location
  let title := jsTrim d.title
  let parts :=
    (([title, location, summary, entities, keywords, tags, focus].filter
        (fun s => s ≠ "")).map jsTrim).filter (fun s => s ≠ "")
  finalizePeriod (combineParts parts)

/-- All seven input fields are empty. -/
def AnalysisInput.allEmpty (d : AnalysisInput) : Prop :=
  d.title = "" ∧ d.primary_location = "" ∧ d.event_summary_points = [] ∧
  d.thematic_keywords = [] ∧ d.topic_tags = [] ∧ d.key_entities = [] ∧ d.content_focus = []

theorem endsWithPeriod_append_dot (s : String) : endsWithPeriod (s ++ ".") = true := by
  cases s with
  | mk data =>
    simp [endsWithPeriod, String.instAppend, String.append]

theorem append_dot_ne_empty (s : String) : s ++ "." ≠ "" := by
  intro h
  have h2 := congrArg String.data h
  cases s with
  | mk data => simp [String.instAppend, String.append] at h2

/-- The period fix-up establishes the period-iff-nonempty invariant for any
combined string. -/
theorem finalizePeriod_spec (c : String) :
    endsWithPeriod (finalizePeriod c) = true ↔ finalizePeriod c ≠ "" := by
  unfold finalizePeriod
  by_cases hne : c = ""
  · simp [hne, endsWithPeriod]
  · by_cases hp : endsWithPeriod c
    · simp [hne, hp]
    · simp only [hne, hp, Bool.not_eq_true, ne_eq, not_false_eq_true, true_and, if_pos,
        Bool.false_eq_true]
      simp [endsWithPeriod_append_dot, append_dot_ne_empty]

/-- C9.  The output of `generateSearchText` ends with a period exactly when
it is nonempty, and it is the empty string whenever every input field is
empty. -/
theorem generateSearchText_period_iff_nonempty :
    (∀ d : AnalysisInput, endsWithPeriod (generateSearchText d) = true ↔ generateSearchText d ≠ "") ∧
    (∀ d : AnalysisInput, d.allEmpty → generateSearchText d = "") := by
  constructor
  · intro d
    exact finalizePeriod_spec _
  · rintro d ⟨h1, h2, h3, h4, h5, h6, h7⟩
    cases d
    simp only at h1 h2 h3 h4 h5 h6 h7
    subst h1 h2 h3 h4 h5 h6 h7
    rfl

/-- C9 (witness).  The empty-input case evaluated concretely, through the
theorem. -/
theorem generateSearchText_period_iff_nonempty_witness :
    generateSearchText
      { title := "", primary_location := "", event_summary_points := [],
        thematic_keywords := [], topic_tags := [], key_entities := [], content_focus := [] } = "" :=
  generateSearchText_period_iff_nonempty.2
    { title := "", primary_location := "", event_summary_points := [],
      thematic_keywords := [], topic_tags := [], key_entities := [], content_focus := [] }
    ⟨rfl, rfl, rfl, rfl, rfl, rfl, rfl⟩

/-! ## The enrichment worker's commit step

`ProcessArticles.run` (workflows/processArticles.workflow.ts) runs the
embedding call and the R2 upload in parallel with `Promise.allSettled` and
then, in the single `update article N status` step, writes exactly one
update to the article row.  `Settled` is the observable outcome of one
settled promise.  An `ArticleUpdate` records the `.set` payload of one
`db.update($articles)` call: an `Option` field is `none` when the update
does not touch that column, and `analysisWritten` stands for the block of
analysis columns written only on full success.  The spec refers to the
`R2_UPLOAD_FAILED` status by its storage-neutral name `BLOB_UPLOAD_FAILED`
(it calls R2 "the blob store"); the embedding uses the literal from the
code and the database enum. -/

inductive ArticleStatus where
  | PENDING_FETCH
  | CONTENT_FETCHED
  | PROCESSED
  | SKIPPED_PDF
  | FETCH_FAILED
  | RENDER_FAILED
  | AI_ANALYSIS_FAILED
  | EMBEDDING_FAILED
  | R2_UPLOAD_FAILED
deriving Repr, DecidableEq

inductive Settled (α : Type) where
  | fulfilled (value : α)
  | rejected (reason : String)
deriving Repr, DecidableEq

structure ArticleUpdate where
  status : ArticleStatus
  processedAt : Bool
  failReason : Option String
  embedding : Option (List Int)
  contentFileKey : Option String
  analysisWritten : Bool
deriving Repr, DecidableEq

/-- Embedding of the `update article N status` step of `ProcessArticles.run`
(workflows/processArticles.workflow.ts): embedding failure checked first,
then upload failure, then the single success update.  The returned list
collects every `db.update` the step performs, in order. -/
def updateArticleStatusStep (embeddingResult : Settled (List Int)) (uploadResult : Settled String) :
    List ArticleUpdate :=
  match embeddingResult with
  | .rejected e =>
    [{ status := .EMBEDDING_FAILED
       processedAt := true
       failReason := some ("Embedding generation failed: " ++ e)
       embedding := none
       contentFileKey := none
       analysisWritten := false }]
  | .fulfilled emb =>
    match uploadResult with
    | .rejected e =>
      [{ status := .R2_UPLOAD_FAILED
         processedAt := true
         failReason := some ("R2 upload failed: " ++ e)
         embedding := none
         contentFileKey := none
         analysisWritten := false }]
    | .fulfilled fileKey =>
      [{ status := .PROCESSED
         processedAt := true
         failReason := none
         embedding := some emb
         contentFileKey := some fileKey
         analysisWritten := true }]

/-- C5.  When the embedding promise fulfils and the upload promise rejects,
the commit step performs exactly one row update: it writes the upload-failure
status (`R2_UPLOAD_FAILED`, the spec's `BLOB_UPLOAD_FAILED`) together with
`failReason` and `processedAt`, and neither the embedding vector nor the
content key is persisted. -/
theorem commit_upload_failure_drops_embedding (emb : List Int) (reason : String) :
    ∃ u, updateArticleStatusStep (.fulfilled emb) (.rejected reason) = [u] ∧
      u.status = ArticleStatus.R2_UPLOAD_FAILED ∧
      u.processedAt = true ∧
      u.failReason = some ("R2 upload failed: " ++ reason) ∧
      u.embedding = none ∧
      u.contentFileKey = none ∧
      u.analysisWritten = false := by
  exact ⟨_, rfl, rfl, rfl, rfl, rfl, rfl, rfl⟩

/-- C10.  When both the embedding promise and the upload promise reject, the
embedding failure takes precedence: the single update written carries
`EMBEDDING_FAILED` (not `R2_UPLOAD_FAILED`), and exactly one terminal status
is written. -/
theorem commit_embedding_failure_precedence (embReason uploadReason : String) :
    ∃ u, updateArticleStatusStep (.rejected embReason) (.rejected uploadReason) = [u] ∧
      u.status = ArticleStatus.EMBEDDING_FAILED ∧
      u.status ≠ ArticleStatus.R2_UPLOAD_FAILED ∧
      u.processedAt = true ∧
      u.failReason = some ("Embedding generation failed: " ++ embReason) := by
  refine ⟨_, rfl, rfl, ?_, rfl, rfl⟩
  intro h
  exact ArticleStatus.noConfusion h

/-! ## The domain rate limiter

`DomainRateLimiter.processBatch` (lib/rateLimiter.ts) loops until the
remaining item list is empty: it selects up to `maxConcurrent` items whose
host cooldown has expired (silently removing items whose URL the `URL`
constructor rejects), sleeps when nothing is ready, runs the selection in
parallel keeping fulfilled results, and sleeps the global cooldown between
non-final iterations.

The model makes the clock explicit: `RLState.now` is `Date.now()`, advanced
by the slept duration (durable-orchestrator semantics; time elapsed inside
an iteration is not modelled as no claim depends on it).  A sleep duration
of `none` stands for the JS `Infinity` produced by `Math.min()` over an
empty array.  `fuel` bounds the number of loop iterations so the recursion
is structural; `none` means the loop did not finish within that many
iterations. -/

structure RLItem where
  id : Int
  url : String
deriving Repr, DecidableEq

structure RLOptions where
  maxConcurrent : Nat
  globalCooldownMs : Int
  domainCooldownMs : Int
deriving Repr, DecidableEq

structure RLEnv (R : Type) where
  parseHost : String → Option String
  work : RLItem → String → Settled R

structure RLState where
  lastDomainAccess : List (String × Int)
  now : Int
deriving Repr, DecidableEq

inductive RLAction where
  | sleep (ms : Option Int)
  | workCall (item : RLItem) (domain : String)
deriving Repr, DecidableEq

def lookupLast (m : List (String × Int)) (d : String) : Int :=
  (((m.find? (fun p => p.1 = d)).map (fun p => p.2)).getD 0)

def setLast (m : List (String × Int)) (d : String) (t : Int) : List (String × Int) :=
  if m.any (fun p => p.1 = d) then m.map (fun p => if p.1 = d then (d, t) else p)
  else m ++ [(d, t)]

/-- Removal of the first item with a given id, the effect of
`findIndex(i => i.id === item.id)` followed by `splice(idx, 1)` (no effect
when the id is absent, as `findIndex` then returns -1). -/
def removeById : List RLItem → Int → List RLItem
  | [], _ => []
  | r :: rs, x => if r.id = x then rs else r :: removeById rs x

/-- The selection loop over the snapshot `[...remainingItems]`: stop when
the batch is full; an unparseable URL removes the item from the remaining
list without selecting it; a parseable item joins the batch when its host's
cooldown has expired. -/
def selectGo (mc : Nat) (cooldown : Int) (parseHost : String → Option String)
    (last : List (String × Int)) (now : Int) :
    List RLItem → List RLItem → List RLItem → (List RLItem × List RLItem)
  | [], batch, remaining => (batch, remaining)
  | it :: snap, batch, remaining =>
    if mc ≤ batch.length then (batch, remaining)
    else
      match parseHost it.url with
      | some d =>
        if cooldown ≤ now - lookupLast last d then
          selectGo mc cooldown parseHost last now snap (batch ++ [it]) (removeById remaining it.id)
        else selectGo mc cooldown parseHost last now snap batch remaining
      | none => selectGo mc cooldown parseHost last now snap batch (removeById remaining it.id)

/-- JS `Math.min` over the extended integers (`none` is `Infinity`). -/
def eintMin : Option Int → Option Int → Option Int
  | none, b => b
  | some x, none => some x
  | some x, some y => some (min x y)

/-- The wait computation of the nothing-ready branch: remaining cooldowns
(`Infinity` for an invalid URL), filtered to positive ones (`Infinity`
included), folded with `Math.min` (empty gives `Infinity`). -/
def nextReadyTime (parseHost : String → Option String) (last : List (String × Int))
    (cooldown now : Int) (rem : List RLItem) : Option Int :=
  ((rem.map (fun it =>
      match parseHost it.url with
      | some d => some (cooldown - (now - lookupLast last d))
      | none => (none : Option Int))).filter
    (fun c => match c with | some t => 0 < t | none => true)).foldl eintMin none

/-- One parallel batch via `Promise.allSettled`, in array order: each item
re-parses its URL (a throw rejects that promise silently), marks the host's
last access, and calls the worker; fulfilled results are kept in order. -/
def runBatchGo {R : Type} (env : RLEnv R) (now : Int) :
    List RLItem → List (String × Int) → (List (String × Int) × List RLAction × List R)
  | [], last => (last, [], [])
  | it :: rest, last =>
    match env.parseHost it.url with
    | none => runBatchGo env now rest last
    | some d =>
      let acc := runBatchGo env now rest (setLast last d now)
      match env.work it d with
      | .fulfilled r => (acc.1, .workCall it d :: acc.2.1, r :: acc.2.2)
      | .rejected _ => (acc.1, .workCall it d :: acc.2.1, acc.2.2)

/-- One selection pass: the snapshot and the mutated remaining list both
start as the current remaining items. -/
def selStep {R : Type} (opts : RLOptions) (env : RLEnv R) (st : RLState) (items : List RLItem) :
    List RLItem × List RLItem :=
  selectGo opts.maxConcurrent opts.domainCooldownMs env.parseHost st.lastDomainAccess st.now
    items [] items

/-- JS `Math.max(500, nextReady)` over the extended integers. -/
def sleepLen : Option Int → Option Int
  | none => none
  | some t => some (max 500 t)

/-- Duration of the nothing-ready sleep. -/
def pbSleep {R : Type} (opts : RLOptions) (env : RLEnv R) (st : RLState) (rem : List RLItem) :
    Option Int :=
  sleepLen (nextReadyTime env.parseHost st.lastDomainAccess opts.domainCooldownMs st.now rem)

/-- The `while (remainingItems.length > 0)` loop of `processBatch`. -/
def processBatchGo {R : Type} (opts : RLOptions) (env : RLEnv R) :
    Nat → RLState → List RLItem → Option (List R × List RLAction × RLState)
  | _, st, [] => some ([], [], st)
  | 0, _, _ :: _ => none
  | fuel + 1, st, it :: its =>
    if (selStep opts env st (it :: its)).1 = [] then
      match processBatchGo opts env fuel
          { st with now := st.now + (pbSleep opts env st (selStep opts env st (it :: its)).2).getD 0 }
          (selStep opts env st (it :: its)).2 with
      | none => none
      | some (rs, tr, stF) =>
        some (rs, .sleep (pbSleep opts env st (selStep opts env st (it :: its)).2) :: tr, stF)
    else
      if (selStep opts env st (it :: its)).2 = [] then
        match processBatchGo opts env fuel
            { st with lastDomainAccess :=
                (runBatchGo env st.now (selStep opts env st (it :: its)).1 st.lastDomainAccess).1 }
            (selStep opts env st (it :: its)).2 with
        | none => none
        | some (rs, tr, stF) =>
          some ((runBatchGo env st.now (selStep opts env st (it :: its)).1 st.lastDomainAccess).2.2 ++ rs,
            (runBatchGo env st.now (selStep opts env st (it :: its)).1 st.lastDomainAccess).2.1 ++ tr,
            stF)
      else
        match processBatchGo opts env fuel
            { lastDomainAccess :=
                (runBatchGo env st.now (selStep opts env st (it :: its)).1 st.lastDomainAccess).1
              now := st.now + opts.globalCooldownMs }
            (selStep opts env st (it :: its)).2 with
        | none => none
        | some (rs, tr, stF) =>
          some ((runBatchGo env st.now (selStep opts env st (it :: its)).1 st.lastDomainAccess).2.2 ++ rs,
            (runBatchGo env st.now (selStep opts env st (it :: its)).1 st.lastDomainAccess).2.1 ++
              (.sleep (some opts.globalCooldownMs) :: tr),
            stF)

/-- Embedding of `DomainRateLimiter.processBatch` (lib/rateLimiter.ts). -/
def processBatch {R : Type} (opts : RLOptions) (env : RLEnv R) (fuel : Nat) (st : RLState)
    (items : List RLItem) : Option (List R × List RLAction × RLState) :=
  processBatchGo opts env fuel st items

theorem removeById_map_id (rem : List RLItem) (x : Int) :
    (removeById rem x).map (fun it => it.id) = (rem.map (fun it => it.id)).erase x := by
  induction rem with
  | nil => rfl
  | cons r rs ih =>
    by_cases h : r.id = x
    · simp [removeById, h, List.erase_cons]
    · simp [removeById, h, List.erase_cons, ih]

/-- When every snapshot item has an unparseable URL (and the batch can hold
at least one item), the selection loop selects nothing and empties the
remaining list. -/
theorem selectGo_all_invalid (mc : Nat) (cooldown : Int) (parseHost : String → Option String)
    (last : List (String × Int)) (now : Int) :
    ∀ (snap rem : List RLItem), 0 < mc →
      (∀ it ∈ snap, parseHost it.url = none) →
      (rem.map (fun it => it.id)).Perm (snap.map (fun it => it.id)) →
      selectGo mc cooldown parseHost last now snap [] rem = ([], []) := by
  intro snap
  induction snap with
  | nil =>
    intro rem _ _ hperm
    have : rem.map (fun it => it.id) = [] := List.Perm.eq_nil (by simpa using hperm)
    have hrem : rem = [] := List.map_eq_nil_iff.mp this
    simp [selectGo, hrem]
  | cons it snap ih =>
    intro rem hmc hinv hperm
    have hne : ¬ mc ≤ ([] : List RLItem).length := by simpa using hmc.ne'
    have hhead : parseHost it.url = none := hinv it (List.mem_cons_self _ _)
    have htail : ∀ x ∈ snap, parseHost x.url = none := fun x hx => hinv x (List.mem_cons_of_mem _ hx)
    have hperm' : ((removeById rem it.id).map (fun i => i.id)).Perm
        (snap.map (fun i => i.id)) := by
      rw [removeById_map_id]
      have := hperm.erase it.id
      simpa [List.erase_cons_head] using this
    simp only [selectGo, hne, if_false, hhead]
    exact ih (removeById rem it.id) hmc htail hperm'

/-- Every recorded work call in one parallel batch carries the parse of its
item's URL. -/
theorem runBatchGo_workCall {R : Type} (env : RLEnv R) (now : Int) :
    ∀ (batch : List RLItem) (last : List (String × Int)) (it : RLItem) (d : String),
      RLAction.workCall it d ∈ (runBatchGo env now batch last).2.1 →
      env.parseHost it.url = some d := by
  intro batch
  induction batch with
  | nil => intro last it d h; simp [runBatchGo] at h
  | cons b rest ih =>
    intro last it d h
    rw [runBatchGo] at h
    cases hp : env.parseHost b.url with
    | none =>
      rw [hp] at h
      exact ih last it d h
    | some d' =>
      rw [hp] at h
      dsimp only at h
      cases hw : env.work b d' with
      | fulfilled r =>
        rw [hw] at h
        simp only [List.mem_cons, RLAction.workCall.injEq] at h
        rcases h with ⟨rfl, rfl⟩ | h
        · exact hp
        · exact ih _ it d h
      | rejected e =>
        rw [hw] at h
        simp only [List.mem_cons, RLAction.workCall.injEq] at h
        rcases h with ⟨rfl, rfl⟩ | h
        · exact hp
        · exact ih _ it d h

/-- Work calls recorded by the whole loop all come from parseable URLs. -/
theorem processBatchGo_workCall {R : Type} (opts : RLOptions) (env : RLEnv R) :
    ∀ (fuel : Nat) (st : RLState) (items : List RLItem) (res : List R) (tr : List RLAction)
      (stF : RLState),
      processBatchGo opts env fuel st items = some (res, tr, stF) →
      ∀ it d, RLAction.workCall it d ∈ tr → env.parseHost it.url = some d := by
  intro fuel
  induction fuel with
  | zero =>
    intro st items res tr stF h it d hmem
    cases items with
    | nil =>
      simp only [processBatchGo, Option.some.injEq, Prod.mk.injEq] at h
      obtain ⟨-, h2, -⟩ := h
      rw [← h2] at hmem
      simp at hmem
    | cons a as => simp [processBatchGo] at h
  | succ n ih =>
    intro st items res tr stF h it d hmem
    cases items with
    | nil =>
      simp only [processBatchGo, Option.some.injEq, Prod.mk.injEq] at h
      obtain ⟨-, h2, -⟩ := h
      rw [← h2] at hmem
      simp at hmem
    | cons a as =>
      rw [processBatchGo] at h
      split at h
      · split at h
        · exact absurd h (by simp)
        · rename_i rs' tr' stF' heq
          simp only [Option.some.injEq, Prod.mk.injEq] at h
          obtain ⟨-, h2, -⟩ := h
          rw [← h2] at hmem
          simp only [List.mem_cons] at hmem
          rcases hmem with hmem | hmem
          · exact absurd hmem (by simp)
          · exact ih _ _ _ _ _ heq it d hmem
      · split at h
        · split at h
          · exact absurd h (by simp)
          · rename_i rs' tr' stF' heq
            simp only [Option.some.injEq, Prod.mk.injEq] at h
            obtain ⟨-, h2, -⟩ := h
            rw [← h2] at hmem
            rcases List.mem_append.mp hmem with hmem | hmem
            · exact runBatchGo_workCall env st.now _ _ it d hmem
            · exact ih _ _ _ _ _ heq it d hmem
        · split at h
          · exact absurd h (by simp)
          · rename_i rs' tr' stF' heq
            simp only [Option.some.injEq, Prod.mk.injEq] at h
            obtain ⟨-, h2, -⟩ := h
            rw [← h2] at hmem
            rcases List.mem_append.mp hmem with hmem | hmem
            · exact runBatchGo_workCall env st.now _ _ it d hmem
            · simp only [List.mem_cons] at hmem
              rcases hmem with hmem | hmem
              · exact absurd hmem (by simp)
              · exact ih _ _ _ _ _ heq it d hmem

/-- One tick of the loop on an all-invalid item list: everything is removed
during selection, one sleep of the `Infinity` wait is recorded, and the loop
exits with no results and no work calls. -/
theorem processBatchGo_all_invalid {R : Type} (opts : RLOptions) (env : RLEnv R)
    (st : RLState) (items : List RLItem) (hmc : 0 < opts.maxConcurrent)
    (hinv : ∀ it ∈ items, env.parseHost it.url = none) :
    ∃ tr stF, processBatchGo opts env 1 st items = some ([], tr, stF) ∧
      ∀ it d, RLAction.workCall it d ∉ tr := by
  cases items with
  | nil =>
    refine ⟨[], st, rfl, ?_⟩
    intro it d hmem
    simp at hmem
  | cons a as =>
    have hsel : selStep opts env st (a :: as) = ([], []) :=
      selectGo_all_invalid opts.maxConcurrent opts.domainCooldownMs env.parseHost
        st.lastDomainAccess st.now (a :: as) (a :: as) hmc hinv (List.Perm.refl _)
    refine ⟨[RLAction.sleep none], { st with now := st.now + (0 : Int) }, ?_, ?_⟩
    · rw [processBatchGo]
      simp only [hsel]
      rfl
    · intro it d hmem
      simp at hmem

/-- C8.  Items whose URL the `URL` constructor rejects are dropped silently:
every recorded work call carries a successfully parsed host, so the worker
is never invoked on an invalid-URL item; and on a batch whose every URL is
invalid, `processBatch` finishes (within one loop iteration) with an empty
result list and no work calls at all. -/
theorem processBatch_drops_invalid_urls {R : Type} (opts : RLOptions) (env : RLEnv R) :
    (∀ fuel st items res tr stF,
      processBatch opts env fuel st items = some (res, tr, stF) →
      ∀ it d, RLAction.workCall it d ∈ tr → env.parseHost it.url = some d) ∧
    (∀ st items, 0 < opts.maxConcurrent →
      (∀ it ∈ items, env.parseHost it.url = none) →
      ∃ tr stF, processBatch opts env 1 st items = some ([], tr, stF) ∧
        ∀ it d, RLAction.workCall it d ∉ tr) :=
  ⟨fun fuel st items res tr stF h => processBatchGo_workCall opts env fuel st items res tr stF h,
   fun st items hmc hinv => processBatchGo_all_invalid opts env st items hmc hinv⟩

/-- A concrete rate-limiter environment in which no URL parses (as for the
strings below, which `new URL` rejects). -/
def demoRLEnv : RLEnv Int where
  parseHost _ := none
  work _ _ := .rejected "unreached"

/-- C8 (witness).  The all-invalid batch evaluated concretely: the worker
settings of the enrichment workflow, two unparseable URLs, empty result. -/
theorem processBatch_drops_invalid_urls_witness :
    ∃ tr stF,
      processBatch { maxConcurrent := 8, globalCooldownMs := 1000, domainCooldownMs := 5000 }
        demoRLEnv 1 { lastDomainAccess := [], now := 0 }
        [{ id := 1, url := "not a url" }, { id := 2, url := "::" }] = some ([], tr, stF) ∧
      ∀ it d, RLAction.workCall it d ∉ tr :=
  (processBatch_drops_invalid_urls
    { maxConcurrent := 8, globalCooldownMs := 1000, domainCooldownMs := 5000 } demoRLEnv).2
    { lastDomainAccess := [], now := 0 }
    [{ id := 1, url := "not a url" }, { id := 2, url := "::" }]
    (by decide) (fun it _ => rfl)

/-! ## The source-scraper tick

`SourceScraperDO.alarm` (durable_objects/sourceScraperDO.ts) loads and
schema-validates the persisted `SourceState`, immediately arms the next
regular alarm, and then runs fetch → parse → insert → queue, each of the
first three through `attemptWithRetries` with `MAX_STEP_RETRIES = 3`;
`lastChecked` is written back only at the ends of the two success paths.

The model: `DOStorage` is the durable storage (the `state` key and the
pending alarm); `DOAction` is the tick's observable effect trace, with one
marker action recording that a pipeline step began and `setAlarm`,
`queueSend` and `putState` recording effects.  `DOEnv` carries the oracles:
per-attempt fetch outcomes, the feed-parser environment, per-attempt insert
outcomes, and the zod URL check used by the state schema.  The parse step
retries a deterministic computation (`parseRSSFeed(feedText)` on the same
text), so its three attempts are collapsed into one evaluation; a parse
exception escapes to the alarm handler's outer catch, ending the tick with
no further effect.  Storage writes themselves are modelled as succeeding. -/

structure SourceStateRaw where
  sourceId : Int
  url : String
  scrapeFrequencyTier : Int
  lastChecked : Option Int
deriving Repr, DecidableEq

/-- The `SourceStateSchema` shape check: positive integer id, a URL string
(zod's `z.string().url()`, an external check taken as an oracle), tier
literally 1, 2, 3 or 4, `lastChecked` number-or-null (always true at this
record type). -/
def validateSourceState (urlValid : String → Bool) (s : SourceStateRaw) : Bool :=
  (0 < s.sourceId) && urlValid s.url &&
    (s.scrapeFrequencyTier = 1 || s.scrapeFrequencyTier = 2 ||
     s.scrapeFrequencyTier = 3 || s.scrapeFrequencyTier = 4)

/-- `tierIntervals[tier] || DEFAULT_INTERVAL` in milliseconds. -/
def tierInterval (t : Int) : Int :=
  if t = 1 then 3600000
  else if t = 2 then 14400000
  else if t = 3 then 21600000
  else if t = 4 then 86400000
  else 14400000

def maxStepRetries : Nat := 3

def dayMs : Int := 86400000

/-- Embedding of `attemptWithRetries`: attempts are numbered from 1; the
first success returns immediately, otherwise the last error is returned
(`maxRetries = 0` cannot arise: the only call sites pass 3). -/
def attemptWithRetries {T : Type} (op : Nat → Except String T) : Nat → Nat → Except String T
  | _, 0 => .error "no attempts made"
  | attempt, 1 => op attempt
  | attempt, n + 2 =>
    match op attempt with
    | .ok v => .ok v
    | .error _ => attemptWithRetries op (attempt + 1) (n + 1)

/-- Observable outcome of one `fetch` attempt of the feed URL. -/
inductive FeedFetchAttempt where
  | threw (msg : String)
  | resp (ok : Bool) (status : Nat) (statusText : String) (textResult : Except String String)
deriving Repr

/-- One attempt of the fetch step: a thrown fetch is an error, a non-ok
(non-2xx) response is an error, then reading the body can fail, else the
body text is returned. -/
def fetchFeedOnce (a : FeedFetchAttempt) : Except String String :=
  match a with
  | .threw m => .error m
  | .resp ok status statusText textResult =>
    if ok = false then
      .error ("Fetch failed with status: " ++ toString status ++ " " ++ statusText)
    else textResult

structure DOEnv where
  feedEnv : FeedEnv
  fetchAttempt : Nat → FeedFetchAttempt
  insertAttempt : Nat → Except String (List Int)
  now : Int
  urlValid : String → Bool

structure DOStorage where
  state : Option SourceStateRaw
  alarm : Option Int
deriving Repr, DecidableEq

inductive DOAction where
  | setAlarm (t : Int)
  | fetchStep
  | parseStep
  | insertStep
  | queueSend (ids : List Int)
  | putState (s : SourceStateRaw)
deriving Repr, DecidableEq

/-- The queue batching `slice(i, i + 100)` loop. -/
def chunkIdsGo : Nat → List Int → List (List Int)
  | 0, _ => []
  | _, [] => []
  | fuel + 1, l => l.take 100 :: chunkIdsGo fuel (l.drop 100)

def chunkIds (l : List Int) : List (List Int) :=
  chunkIdsGo l.length l

/-- Embedding of `SourceScraperDO.alarm`: returns the storage after the tick
together with the effect trace.  Missing state logs and returns with no new
alarm; invalid state arms a tick 24 hours out and returns; otherwise the
next regular tick is armed first and the pipeline runs, each failing step
ending the tick early with the persisted state untouched.  Queue sends are
fire-and-forget (`waitUntil` with a caught rejection), so their outcomes do
not influence the trace shape or the final `putState`. -/
def alarmTick (env : DOEnv) (stor : DOStorage) : DOStorage × List DOAction :=
  match stor.state with
  | none => (stor, [])
  | some raw =>
    if validateSourceState env.urlValid raw = false then
      ({ stor with alarm := some (env.now + dayMs) }, [.setAlarm (env.now + dayMs)])
    else
      match attemptWithRetries (fun a => fetchFeedOnce (env.fetchAttempt a)) 1 maxStepRetries with
      | .error _ =>
        ({ stor with alarm := some (env.now + tierInterval raw.scrapeFrequencyTier) },
          [.setAlarm (env.now + tierInterval raw.scrapeFrequencyTier), .fetchStep])
      | .ok feedText =>
        match parseRSSFeedM env.feedEnv feedText with
        | .thrown _ =>
          ({ stor with alarm := some (env.now + tierInterval raw.scrapeFrequencyTier) },
            [.setAlarm (env.now + tierInterval raw.scrapeFrequencyTier), .fetchStep, .parseStep])
        | .error _ =>
          ({ stor with alarm := some (env.now + tierInterval raw.scrapeFrequencyTier) },
            [.setAlarm (env.now + tierInterval raw.scrapeFrequencyTier), .fetchStep, .parseStep])
        | .ok entries =>
          if entries = [] then
            ({ state := some { raw with lastChecked := some env.now },
               alarm := some (env.now + tierInterval raw.scrapeFrequencyTier) },
              [.setAlarm (env.now + tierInterval raw.scrapeFrequencyTier), .fetchStep, .parseStep,
               .putState { raw with lastChecked := some env.now }])
          else
            match attemptWithRetries (fun a => env.insertAttempt a) 1 maxStepRetries with
            | .error _ =>
              ({ stor with alarm := some (env.now + tierInterval raw.scrapeFrequencyTier) },
                [.setAlarm (env.now + tierInterval raw.scrapeFrequencyTier), .fetchStep, .parseStep,
                 .insertStep])
            | .ok ids =>
              ({ state := some { raw with lastChecked := some env.now },
                 alarm := some (env.now + tierInterval raw.scrapeFrequencyTier) },
                [.setAlarm (env.now + tierInterval raw.scrapeFrequencyTier), .fetchStep, .parseStep,
                 .insertStep] ++
                (if ids = [] then [] else (chunkIds ids).map DOAction.queueSend) ++
                [.putState { raw with lastChecked := some env.now }])

/-- Success of the whole fetch → parse → insert pipeline of one tick (the
empty-feed path skips the insert step and still counts as success, as in the
source). -/
def tickAllStepsOk (env : DOEnv) : Bool :=
  match attemptWithRetries (fun a => fetchFeedOnce (env.fetchAttempt a)) 1 maxStepRetries with
  | .error _ => false
  | .ok feedText =>
    match parseRSSFeedM env.feedEnv feedText with
    | .thrown _ => false
    | .error _ => false
    | .ok entries =>
      if entries = [] then true
      else
        match attemptWithRetries (fun a => env.insertAttempt a) 1 maxStepRetries with
        | .error _ => false
        | .ok _ => true

/-- C2.  On a tick whose state validates, the persisted `SourceState` after
the tick carries `lastChecked = now` exactly when the whole fetch → parse →
insert pipeline succeeded, and is untouched when any of those steps failed
(after its retries). -/
theorem alarm_lastChecked_frame (env : DOEnv) (stor : DOStorage) (raw : SourceStateRaw)
    (hst : stor.state = some raw) (hv : validateSourceState env.urlValid raw = true) :
    (alarmTick env stor).1.state =
      some (if tickAllStepsOk env then { raw with lastChecked := some env.now } else raw) := by
  unfold alarmTick tickAllStepsOk
  rw [hst]
  simp only [hv]
  cases hf : attemptWithRetries (fun a => fetchFeedOnce (env.fetchAttempt a)) 1 maxStepRetries with
  | error e => simp [hf, hst]
  | ok feedText =>
    cases hp : parseRSSFeedM env.feedEnv feedText with
    | thrown m => simp [hf, hp, hst]
    | error e => simp [hf, hp, hst]
    | ok entries =>
      by_cases he : entries = []
      · simp [hf, hp, he]
      · cases hi : attemptWithRetries (fun a => env.insertAttempt a) 1 maxStepRetries with
        | error e => simp [hf, hp, he, hi, hst]
        | ok ids => simp [hf, hp, he, hi]

/-- C3.  On a tick whose state validates, the very first effect — before the
feed fetch begins, and whatever the later steps do — is arming the next
regular alarm at `now` plus the validated tier's interval; that alarm is
still pending when the tick ends. -/
theorem alarm_arms_before_fetch (env : DOEnv) (stor : DOStorage) (raw : SourceStateRaw)
    (hst : stor.state = some raw) (hv : validateSourceState env.urlValid raw = true) :
    ∃ rest, (alarmTick env stor).2 =
        DOAction.setAlarm (env.now + tierInterval raw.scrapeFrequencyTier) ::
          DOAction.fetchStep :: rest ∧
      (alarmTick env stor).1.alarm = some (env.now + tierInterval raw.scrapeFrequencyTier) := by
  unfold alarmTick
  rw [hst]
  simp only [hv]
  cases hf : attemptWithRetries (fun a => fetchFeedOnce (env.fetchAttempt a)) 1 maxStepRetries with
  | error e => exact ⟨[], by simp [hf]⟩
  | ok feedText =>
    cases hp : parseRSSFeedM env.feedEnv feedText with
    | thrown m => exact ⟨[.parseStep], by simp [hf, hp]⟩
    | error e => exact ⟨[.parseStep], by simp [hf, hp]⟩
    | ok entries =>
      by_cases he : entries = []
      · exact ⟨[.parseStep, .putState { raw with lastChecked := some env.now }],
          by simp [hf, hp, he]⟩
      · cases hi : attemptWithRetries (fun a => env.insertAttempt a) 1 maxStepRetries with
        | error e => exact ⟨[.parseStep, .insertStep], by simp [hf, hp, he, hi]⟩
        | ok ids =>
          refine ⟨[.parseStep, .insertStep] ++
            (if ids = [] then [] else (chunkIds ids).map DOAction.queueSend) ++
            [.putState { raw with lastChecked := some env.now }], by simp [hf, hp, he, hi]⟩

/-- C4.  On a tick whose loaded state fails the shape validation, the whole
tick is a single far-future re-arm: the only action is `setAlarm(now + 24h)`,
so no fetch, parse, insert or queue publish happens, and the persisted state
is untouched. -/
theorem alarm_invalid_state_refuses (env : DOEnv) (stor : DOStorage) (raw : SourceStateRaw)
    (hst : stor.state = some raw) (hv : validateSourceState env.urlValid raw = false) :
    alarmTick env stor =
      ({ stor with alarm := some (env.now + dayMs) }, [DOAction.setAlarm (env.now + dayMs)]) := by
  unfold alarmTick
  rw [hst]
  simp [hv, hst]

/-! Concrete tick environment for the witnesses: a 200-OK fetch of the valid
single-item feed, an insert acknowledging one new row id, current time 1000,
and the source URL accepted by the schema's URL check. -/

def demoDOEnv : DOEnv where
  feedEnv := demoFeedEnvFull
  fetchAttempt _ := .resp true 200 "OK" (.ok xmlValid)
  insertAttempt _ := .ok [42]
  now := 1000
  urlValid s := s = "https://example.com/rss"

def demoRaw : SourceStateRaw :=
  { sourceId := 1, url := "https://example.com/rss", scrapeFrequencyTier := 2, lastChecked := none }

def demoStor : DOStorage := { state := some demoRaw, alarm := none }

def demoRawBad : SourceStateRaw := { demoRaw with scrapeFrequencyTier := 7 }

def demoStorBad : DOStorage := { state := some demoRawBad, alarm := none }

set_option maxRecDepth 20000 in
/-- C2 (witness).  The fully successful concrete tick writes
`lastChecked = 1000` back to storage. -/
theorem alarm_lastChecked_frame_witness :
    (alarmTick demoDOEnv demoStor).1.state = some { demoRaw with lastChecked := some 1000 } := by
  have h := alarm_lastChecked_frame demoDOEnv demoStor demoRaw rfl (by decide)
  rw [h]
  rfl

set_option maxRecDepth 20000 in
/-- C3 (witness).  The concrete tick's trace starts with the arm of the next
regular alarm (tier 2, so 1000 + 4h) followed by the fetch step. -/
theorem alarm_arms_before_fetch_witness :
    ∃ rest, (alarmTick demoDOEnv demoStor).2 =
        DOAction.setAlarm (demoDOEnv.now + tierInterval demoRaw.scrapeFrequencyTier) ::
          DOAction.fetchStep :: rest ∧
      (alarmTick demoDOEnv demoStor).1.alarm =
        some (demoDOEnv.now + tierInterval demoRaw.scrapeFrequencyTier) :=
  alarm_arms_before_fetch demoDOEnv demoStor demoRaw rfl (by decide)

/-- C4 (witness).  A tier-7 state fails validation and the concrete tick
only re-arms 24 hours out. -/
theorem alarm_invalid_state_refuses_witness :
    alarmTick demoDOEnv demoStorBad =
      ({ demoStorBad with alarm := some (demoDOEnv.now + dayMs) },
        [DOAction.setAlarm (demoDOEnv.now + dayMs)]) :=
  alarm_invalid_state_refuses demoDOEnv demoStorBad demoRawBad rfl (by decide)
